import Mathlib

/-!
Verification of the rkdb sync reconciliation engine.

Shallow embedding of the parts of `src/functions.py` and
`src/commands/sync.py` that the specification's claims are about:
string sanitisation, fuzzy track search (`find_track`), the camelot-key
recogniser (`attempt_get_key`), the ID-mapping load/merge/persist
pipeline, the missing-track recorder, the custom-track insert/replace
reconciler, the per-playlist creation step and the orchestrator's
exit/persistence paths.

Python strings are modelled as `List Char`; Python dicts whose insertion
order matters are modelled as association lists; machine integers do not
overflow in any of this code, so `Nat`/`Int` are used directly; code that
can raise is modelled with `Except`/`Option`; the `fuzzywuzzy`
`partial_ratio` scorer is an external library and is modelled as an
abstract parameter `ratio : List Char → List Char → ℕ`.
-/

namespace RKDB

/-- Python `str.lower` over the characters of a string. -/
def pyLower (s : List Char) : List Char := s.map Char.toLower

/-- The default `ignore_chars` of `sanitize` in `functions.py`. -/
def ignoreChars : List Char := [' ', '-', '_', '(', ')']

/-- Function `sanitize` from `functions.py`: lower-case the string, then delete every
occurrence of each ignore character (the successive `str.replace(char, '')`
calls amount to filtering all of them out). -/
def sanitize (s : List Char) : List Char :=
  (pyLower s).filter (fun c => !(ignoreChars.contains c))

/-- Python `s[-3:]`: the last three characters (the whole string when it is
shorter, since `s.length - 3` truncates at zero). -/
def pySliceLastThree (s : List Char) : List Char := s.drop (s.length - 3)

/-- Python `s.isdigit()`: nonempty and every character a digit. -/
def pyIsDigit (s : List Char) : Bool := !s.isEmpty && s.all Char.isDigit

/-- Python `int(s)` on a digit string. -/
def pyInt (s : List Char) : ℕ := s.foldl (fun acc c => 10 * acc + (c.toNat - 48)) 0

/-- The guard chain of `attempt_get_key` (`functions.py`), reached once
`potential_camelot_key[-1]` has successfully evaluated to `letter_part`
(with `number_part = potential_camelot_key[:-1]`, which never raises). -/
def camelotGuards (potential_camelot_key number_part : List Char)
    (letter_part : Char) : Except Unit (Option (List Char)) :=
  if !(pyIsDigit number_part) || !(letter_part.isAlpha) then Except.ok none
  else if pyInt number_part < 1 || pyInt number_part > 12 then Except.ok none
  else if !(letter_part.toLower = 'a' || letter_part.toLower = 'b') then
    Except.ok none
  else Except.ok (some (potential_camelot_key.map Char.toUpper))

/-- The non-`None` branch of `attempt_get_key` (`functions.py`).
`Except.error ()` models the `IndexError` that `potential_camelot_key[-1]`
raises when the filtered string is empty; every other path returns
normally. -/
def attemptGetKeySome (name : List Char) : Except Unit (Option (List Char)) :=
  let last_three_chars := pySliceLastThree name
  let potential_camelot_key := last_three_chars.filter Char.isAlphanum
  let number_part := potential_camelot_key.dropLast
  match potential_camelot_key.getLast? with
  | none => Except.error ()
  | some letter_part => camelotGuards potential_camelot_key number_part letter_part

/-- Function `attempt_get_key` from `functions.py`. -/
def attempt_get_key (playlist_name : Option (List Char)) :
    Except Unit (Option (List Char)) :=
  match playlist_name with
  | none => Except.ok none
  | some name => attemptGetKeySome name

/-- Function `first_or_none` from `functions.py`: `next(iter(xs), None)`. -/
def first_or_none {α : Type} (l : List α) : Option α := l.head?

/-- A Rekordbox library track (`DjmdContent`), restricted to the fields the
sync engine reads. -/
structure RbTrack where
  ID : String
  ArtistName : List Char
  Title : List Char
deriving DecidableEq, Repr

/-- The two accepted query shapes of `find_track`: a dict with a single
`query` key, or a dict with `artist` and `title` keys.  (Any other dict
raises `ValueError`; that shape is outside every claim.) -/
inductive Query where
  | free (q : List Char)
  | pair (artist title : List Char)
deriving DecidableEq, Repr

/-- The sanitised `(artist_query, title_query)` pair computed at the top of
`find_track`. -/
def queryStrings : Query → List Char × List Char
  | Query.free q => (sanitize q, sanitize q)
  | Query.pair a t => (sanitize a, sanitize t)

/-- The qualification test of `find_track`'s loop:
`(match_artist_and_title and artist_matches and title_matches) or
 (not match_artist_and_title and (artist_matches or title_matches))`. -/
def trackQualifies (ratio : List Char → List Char → ℕ) (aq tq : List Char)
    (threshold : ℕ) (match_artist_and_title : Bool) (track : RbTrack) : Bool :=
  let artist_matches : Bool := decide (threshold ≤ ratio aq (sanitize track.ArtistName))
  let title_matches : Bool := decide (threshold ≤ ratio tq (sanitize track.Title))
  (match_artist_and_title && artist_matches && title_matches) ||
    (!match_artist_and_title && (artist_matches || title_matches))

/-- The score attached to a qualifying track:
`float((float(artist_ratio) + float(title_ratio)) / 2)`. -/
def trackScore (ratio : List Char → List Char → ℕ) (aq tq : List Char)
    (track : RbTrack) : ℚ :=
  ((ratio aq (sanitize track.ArtistName) : ℚ) +
    (ratio tq (sanitize track.Title) : ℚ)) / 2

/-- One step of the stable descending sort: walk past strictly larger scores
and place `x` in front of the first entry whose score is `≤ x`'s, so that an
earlier-input element stays in front of equal-scored later ones. -/
def insertDesc (x : RbTrack × ℚ) : List (RbTrack × ℚ) → List (RbTrack × ℚ)
  | [] => [x]
  | y :: ys => if x.2 < y.2 then y :: insertDesc x ys else x :: y :: ys

/-- The stable descending sort performed by Python's
`list.sort(key=lambda x: x[1], reverse=True)` (Timsort is stable, and
`reverse=True` reverses comparisons, not the list, so equal keys keep their
input order).  A stable sort is unique, so insertion sort realises it. -/
def sortDesc : List (RbTrack × ℚ) → List (RbTrack × ℚ)
  | [] => []
  | x :: xs => insertDesc x (sortDesc xs)

/-- Function `find_track` from `functions.py`, with the `fuzzywuzzy.fuzz.partial_ratio`
scorer abstracted as `ratio`.  Builds, in candidate order, the list of
qualifying `(track, score)` pairs, then sorts it descending by score. -/
def find_track (ratio : List Char → List Char → ℕ) (query : Query)
    (all_tracks : List RbTrack) (threshold : ℕ) (match_artist_and_title : Bool) :
    List (RbTrack × ℚ) :=
  let aq := (queryStrings query).1
  let tq := (queryStrings query).2
  let track_and_matches := all_tracks.filterMap (fun track =>
    if trackQualifies ratio aq tq threshold match_artist_and_title track
    then some (track, trackScore ratio aq tq track) else none)
  sortDesc track_and_matches

/-- The unsorted qualifying list of `find_track`, i.e. the candidates that
pass the threshold test, in input order, each paired with its mean score. -/
def qualifyingList (ratio : List Char → List Char → ℕ) (query : Query)
    (all_tracks : List RbTrack) (threshold : ℕ) (match_artist_and_title : Bool) :
    List (RbTrack × ℚ) :=
  all_tracks.filterMap (fun track =>
    if trackQualifies ratio (queryStrings query).1 (queryStrings query).2
        threshold match_artist_and_title track
    then some (track, trackScore ratio (queryStrings query).1 (queryStrings query).2 track)
    else none)

theorem find_track_eq_sortDesc (ratio : List Char → List Char → ℕ) (query : Query)
    (all_tracks : List RbTrack) (threshold : ℕ) (b : Bool) :
    find_track ratio query all_tracks threshold b =
      sortDesc (qualifyingList ratio query all_tracks threshold b) := rfl

theorem insertDesc_perm (x : RbTrack × ℚ) (l : List (RbTrack × ℚ)) :
    (insertDesc x l).Perm (x :: l) := by
  induction l with
  | nil => simp [insertDesc]
  | cons y ys ih =>
    by_cases h : x.2 < y.2
    · simp only [insertDesc, if_pos h]
      exact ((ih.cons y).trans (List.Perm.swap x y ys))
    · simp [insertDesc, if_neg h]

theorem sortDesc_perm (l : List (RbTrack × ℚ)) : (sortDesc l).Perm l := by
  induction l with
  | nil => simp [sortDesc]
  | cons x xs ih =>
    exact (insertDesc_perm x (sortDesc xs)).trans (ih.cons x)

theorem insertDesc_pairwise (x : RbTrack × ℚ) (l : List (RbTrack × ℚ))
    (h : l.Pairwise (fun a b => b.2 ≤ a.2)) :
    (insertDesc x l).Pairwise (fun a b => b.2 ≤ a.2) := by
  induction l with
  | nil => simp [insertDesc]
  | cons y ys ih =>
    rcases List.pairwise_cons.mp h with ⟨hy, hys⟩
    by_cases hlt : x.2 < y.2
    · simp only [insertDesc, if_pos hlt]
      refine List.pairwise_cons.mpr ⟨?_, ih hys⟩
      intro z hz
      rcases List.mem_cons.mp ((insertDesc_perm x ys).mem_iff.mp hz) with hz1 | hz1
      · subst hz1; exact le_of_lt hlt
      · exact hy z hz1
    · simp only [insertDesc, if_neg hlt]
      refine List.pairwise_cons.mpr ⟨?_, h⟩
      intro z hz
      rcases List.mem_cons.mp hz with hz1 | hz1
      · subst hz1; exact le_of_not_lt hlt
      · exact le_trans (hy z hz1) (le_of_not_lt hlt)

theorem sortDesc_pairwise (l : List (RbTrack × ℚ)) :
    (sortDesc l).Pairwise (fun a b => b.2 ≤ a.2) := by
  induction l with
  | nil => simp [sortDesc]
  | cons x xs ih => exact insertDesc_pairwise x (sortDesc xs) ih

theorem filter_insertDesc (x : RbTrack × ℚ) (l : List (RbTrack × ℚ)) (s : ℚ) :
    (insertDesc x l).filter (fun p => decide (p.2 = s)) =
      if x.2 = s then x :: l.filter (fun p => decide (p.2 = s))
      else l.filter (fun p => decide (p.2 = s)) := by
  induction l with
  | nil =>
    by_cases hx : x.2 = s <;> simp [insertDesc, List.filter, hx]
  | cons y ys ih =>
    by_cases hlt : x.2 < y.2
    · rw [insertDesc, if_pos hlt, List.filter_cons, ih]
      by_cases hys : y.2 = s
      · have hxne : ¬ x.2 = s := by
          intro hx
          rw [hx, hys] at hlt
          exact lt_irrefl s hlt
        simp [List.filter_cons, hys, hxne]
      · by_cases hx : x.2 = s <;> simp [List.filter_cons, hys, hx]
    · rw [insertDesc, if_neg hlt]
      by_cases hx : x.2 = s <;> simp [List.filter_cons, hx]

theorem sortDesc_filter_score (l : List (RbTrack × ℚ)) (s : ℚ) :
    (sortDesc l).filter (fun p => decide (p.2 = s)) =
      l.filter (fun p => decide (p.2 = s)) := by
  induction l with
  | nil => simp [sortDesc]
  | cons x xs ih =>
    rw [sortDesc, filter_insertDesc]
    by_cases hx : x.2 = s <;> simp [List.filter_cons, hx, ih]

theorem mem_qualifyingList (ratio : List Char → List Char → ℕ) (query : Query)
    (all_tracks : List RbTrack) (threshold : ℕ) (b : Bool) (t : RbTrack) (sc : ℚ) :
    (t, sc) ∈ qualifyingList ratio query all_tracks threshold b ↔
      t ∈ all_tracks ∧
      trackQualifies ratio (queryStrings query).1 (queryStrings query).2 threshold b t = true ∧
      sc = trackScore ratio (queryStrings query).1 (queryStrings query).2 t := by
  constructor
  · intro h
    rcases List.mem_filterMap.mp h with ⟨a, ha, hfa⟩
    by_cases hq : trackQualifies ratio (queryStrings query).1 (queryStrings query).2 threshold b a
    · rw [if_pos hq] at hfa
      have heq := Option.some.inj hfa
      have h1 : a = t := congrArg Prod.fst heq
      have h2 := congrArg Prod.snd heq
      subst h1
      exact ⟨ha, hq, h2.symm⟩
    · rw [if_neg hq] at hfa
      cases hfa
  · rintro ⟨ht, hq, hsc⟩
    refine List.mem_filterMap.mpr ⟨t, ht, ?_⟩
    rw [if_pos hq, hsc]

theorem mem_find_track (ratio : List Char → List Char → ℕ) (query : Query)
    (all_tracks : List RbTrack) (threshold : ℕ) (b : Bool) (t : RbTrack) (sc : ℚ) :
    (t, sc) ∈ find_track ratio query all_tracks threshold b ↔
      (t, sc) ∈ qualifyingList ratio query all_tracks threshold b := by
  rw [find_track_eq_sortDesc]
  exact (sortDesc_perm _).mem_iff

/-- Spec-side qualification condition, phrased as in §4.1 of the spec:
a candidate qualifies if (`requireBoth` and both scores ≥ threshold) or
(not `requireBoth` and either score ≥ threshold). -/
def QualifiesSpec (ratio : List Char → List Char → ℕ) (query : Query)
    (threshold : ℕ) (requireBoth : Bool) (t : RbTrack) : Prop :=
  (requireBoth = true ∧
      threshold ≤ ratio (queryStrings query).1 (sanitize t.ArtistName) ∧
      threshold ≤ ratio (queryStrings query).2 (sanitize t.Title)) ∨
    (requireBoth = false ∧
      (threshold ≤ ratio (queryStrings query).1 (sanitize t.ArtistName) ∨
       threshold ≤ ratio (queryStrings query).2 (sanitize t.Title)))

theorem trackQualifies_iff (ratio : List Char → List Char → ℕ) (query : Query)
    (threshold : ℕ) (b : Bool) (t : RbTrack) :
    trackQualifies ratio (queryStrings query).1 (queryStrings query).2 threshold b t
        = true ↔
      QualifiesSpec ratio query threshold b t := by
  cases b <;>
    simp [trackQualifies, QualifiesSpec, Bool.and_eq_true, Bool.or_eq_true,
      decide_eq_true_eq]

/-- C4: `find_track` returns exactly the candidates for which
(`requireBoth` and both the artist and title scores are ≥ threshold) or
(not `requireBoth` and at least one of the two scores is ≥ threshold);
each returned candidate carries the arithmetic mean of its artist and
title ratios; the result is sorted descending by score; and ties are
broken by input order, i.e. for each score the returned entries at that
score are exactly the qualifying candidates at that score in candidate
order (stable sort).  The embedding is a pure function, so the
"no side effects" part holds by construction. -/
theorem C4_find_track_functional_correctness
    (ratio : List Char → List Char → ℕ) (query : Query) (all_tracks : List RbTrack)
    (threshold : ℕ) (requireBoth : Bool) :
    (∀ t sc, (t, sc) ∈ find_track ratio query all_tracks threshold requireBoth ↔
        t ∈ all_tracks ∧ QualifiesSpec ratio query threshold requireBoth t ∧
          sc = ((ratio (queryStrings query).1 (sanitize t.ArtistName) : ℚ) +
                (ratio (queryStrings query).2 (sanitize t.Title) : ℚ)) / 2) ∧
    (find_track ratio query all_tracks threshold requireBoth).Pairwise
      (fun a b => b.2 ≤ a.2) ∧
    (∀ s : ℚ,
      (find_track ratio query all_tracks threshold requireBoth).filter
          (fun p => decide (p.2 = s)) =
        (qualifyingList ratio query all_tracks threshold requireBoth).filter
          (fun p => decide (p.2 = s))) := by
  refine ⟨fun t sc => ?_, ?_, fun s => ?_⟩
  · rw [mem_find_track, mem_qualifyingList]
    constructor
    · rintro ⟨h1, h2, h3⟩
      exact ⟨h1, (trackQualifies_iff ratio query threshold requireBoth t).mp h2, h3⟩
    · rintro ⟨h1, h2, h3⟩
      exact ⟨h1, (trackQualifies_iff ratio query threshold requireBoth t).mpr h2, h3⟩
  · rw [find_track_eq_sortDesc]
    exact sortDesc_pairwise _
  · rw [find_track_eq_sortDesc]
    exact sortDesc_filter_score _ s

/-- C5: Raising the threshold never adds candidates: every entry
returned at threshold `t2` is also returned at any threshold `t1 ≤ t2`
(both within 0–100), with the same score. -/
theorem C5_threshold_monotonicity (ratio : List Char → List Char → ℕ) (query : Query)
    (all_tracks : List RbTrack) (requireBoth : Bool) (t1 t2 : ℕ) (p : RbTrack × ℚ)
    (h1 : t1 ≤ t2) (h2 : t2 ≤ 100)
    (hp : p ∈ find_track ratio query all_tracks t2 requireBoth) :
    p ∈ find_track ratio query all_tracks t1 requireBoth := by
  obtain ⟨t, sc⟩ := p
  rw [mem_find_track, mem_qualifyingList] at hp ⊢
  obtain ⟨hmem, hq, hsc⟩ := hp
  refine ⟨hmem, (trackQualifies_iff ratio query t1 requireBoth t).mpr ?_, hsc⟩
  rcases (trackQualifies_iff ratio query t2 requireBoth t).mp hq with
    ⟨hb, ha, ht⟩ | ⟨hb, hor⟩
  · exact Or.inl ⟨hb, le_trans h1 ha, le_trans h1 ht⟩
  · exact Or.inr ⟨hb, hor.imp (le_trans h1) (le_trans h1)⟩

theorem C5_threshold_monotonicity_witness :
    (50 : ℕ) ≤ 80 ∧ (80 : ℕ) ≤ 100 ∧
      (⟨⟨"t1", ['a'], ['a']⟩, (90 : ℚ)⟩ : RbTrack × ℚ) ∈
        find_track (fun _ _ => 90) (Query.pair ['a'] ['a'])
          [⟨"t1", ['a'], ['a']⟩] 50 true :=
  ⟨by decide, by decide,
    C5_threshold_monotonicity (fun _ _ => 90) (Query.pair ['a'] ['a'])
      [⟨"t1", ['a'], ['a']⟩] true 50 80 ⟨⟨"t1", ['a'], ['a']⟩, 90⟩
      (by decide) (by decide)
      ((mem_find_track (fun _ _ => 90) (Query.pair ['a'] ['a'])
          [⟨"t1", ['a'], ['a']⟩] 80 true ⟨"t1", ['a'], ['a']⟩ 90).mpr
        ((mem_qualifyingList (fun _ _ => 90) (Query.pair ['a'] ['a'])
            [⟨"t1", ['a'], ['a']⟩] 80 true ⟨"t1", ['a'], ['a']⟩ 90).mpr
          ⟨by decide, by decide, by norm_num [trackScore]⟩))⟩

theorem char_toNat_ofNat (n : ℕ) (h1 : n ≤ 122) : (Char.ofNat n).toNat = n := by
  have hv : n.isValidChar := Or.inl (by omega)
  rw [Char.ofNat, dif_pos hv]
  simp [Char.ofNatAux, Char.toNat, UInt32.toNat, BitVec.toNat_ofNatLt]

theorem char_eq_ofNat_of_toNat (c : Char) (n : ℕ) (h : c.toNat = n) :
    c = Char.ofNat n := by
  rw [← h, Char.ofNat_toNat]

theorem toUpper_of_isDigit (c : Char) (h : c.isDigit = true) : c.toUpper = c := by
  simp only [Char.isDigit, ge_iff_le, Bool.and_eq_true, decide_eq_true_eq] at h
  have h2 : c.toNat ≤ 57 := UInt32.toNat_le_of_le (by norm_num) h.2
  rw [Char.toUpper, if_neg]
  intro hc
  omega

theorem toUpper_eq_of_toLower (c : Char) (h : c.isAlpha = true) (n : ℕ)
    (hn : 97 ≤ n) (hn2 : n ≤ 122) (h2 : (c.toLower).toNat = n) :
    c.toUpper = Char.ofNat (n - 32) := by
  simp only [Char.isAlpha, Char.isUpper, Char.isLower, Bool.or_eq_true, Bool.and_eq_true,
    decide_eq_true_eq, ge_iff_le] at h
  have hb : (65 ≤ c.toNat ∧ c.toNat ≤ 90) ∨ (97 ≤ c.toNat ∧ c.toNat ≤ 122) := by
    rcases h with ⟨ha, hb⟩ | ⟨ha, hb⟩
    · exact Or.inl ⟨UInt32.le_toNat_of_le (by norm_num) ha,
        UInt32.toNat_le_of_le (by norm_num) hb⟩
    · exact Or.inr ⟨UInt32.le_toNat_of_le (by norm_num) ha,
        UInt32.toNat_le_of_le (by norm_num) hb⟩
  rw [Char.toLower] at h2
  rcases hb with ⟨hb1, hb2⟩ | ⟨hb1, hb2⟩
  · rw [if_pos ⟨hb1, hb2⟩] at h2
    rw [char_toNat_ofNat _ (by omega)] at h2
    rw [Char.toUpper, if_neg (by omega)]
    exact char_eq_ofNat_of_toNat c _ (by omega)
  · rw [if_neg (by omega)] at h2
    rw [Char.toUpper, if_pos (by omega), h2]

theorem map_toUpper_of_digits (l : List Char) (h : ∀ c ∈ l, c.isDigit = true) :
    l.map Char.toUpper = l := by
  induction l with
  | nil => rfl
  | cons c cs ih =>
    rw [List.map_cons, toUpper_of_isDigit c (h c (List.mem_cons_self c cs)),
      ih (fun x hx => h x (List.mem_cons_of_mem c hx))]

/-- Spec-side shape of an uppercased camelot key: a nonempty digit string
whose value is between 1 and 12, followed by `'A'` or `'B'`. -/
def IsCamelotKey (k : List Char) : Prop :=
  ∃ ds L, k = ds ++ [L] ∧ ds ≠ [] ∧ (∀ c ∈ ds, c.isDigit = true) ∧
    1 ≤ pyInt ds ∧ pyInt ds ≤ 12 ∧ (L = 'A' ∨ L = 'B')

theorem attemptGetKeySome_eq_guards (name : List Char) (L : Char)
    (h : ((pySliceLastThree name).filter Char.isAlphanum).getLast? = some L) :
    attemptGetKeySome name =
      camelotGuards ((pySliceLastThree name).filter Char.isAlphanum)
        (((pySliceLastThree name).filter Char.isAlphanum).dropLast) L := by
  simp only [attemptGetKeySome, h]

theorem attemptGetKeySome_ok (name : List Char)
    (hany : (pySliceLastThree name).any Char.isAlphanum = true) :
    ∃ r, attemptGetKeySome name = Except.ok r ∧
      (r = none ∨ ∃ k, r = some k ∧ IsCamelotKey k) := by
  set pot := (pySliceLastThree name).filter Char.isAlphanum with hpotdef
  have hne : pot ≠ [] := by
    rcases List.any_eq_true.mp hany with ⟨c, hc, hcal⟩
    intro hnil
    have hmem : c ∈ pot := List.mem_filter.mpr ⟨hc, hcal⟩
    rw [hnil] at hmem
    exact absurd hmem (List.not_mem_nil c)
  rw [attemptGetKeySome_eq_guards name (pot.getLast hne)
    (List.getLast?_eq_getLast pot hne)]
  unfold camelotGuards
  split_ifs with g1 g2 g3
  · exact ⟨none, rfl, Or.inl rfl⟩
  · exact ⟨none, rfl, Or.inl rfl⟩
  · exact ⟨none, rfl, Or.inl rfl⟩
  · refine ⟨some (pot.map Char.toUpper), rfl, Or.inr ⟨_, rfl, ?_⟩⟩
    simp only [Bool.or_eq_true, Bool.not_eq_true', not_or, Bool.not_eq_false] at g1
    obtain ⟨hdig, halpha⟩ := g1
    simp only [Bool.or_eq_true, decide_eq_true_eq, not_or, not_lt] at g2
    obtain ⟨hge, hle⟩ := g2
    simp only [Bool.not_eq_true', Bool.not_eq_false, Bool.or_eq_true,
      decide_eq_true_eq] at g3
    have hsplit := List.dropLast_append_getLast hne
    simp only [pyIsDigit, Bool.and_eq_true, Bool.not_eq_true'] at hdig
    have hdigits : ∀ c ∈ pot.dropLast, c.isDigit = true :=
      fun c hc => List.all_eq_true.mp hdig.2 c hc
    have hdsne : pot.dropLast ≠ [] := by
      intro hnil
      rw [hnil] at hdig
      exact absurd hdig.1 (by decide)
    refine ⟨pot.dropLast, (pot.getLast hne).toUpper, ?_, hdsne, hdigits, hge, hle, ?_⟩
    · conv_lhs => rw [← hsplit]
      rw [List.map_append, List.map_cons, List.map_nil,
        map_toUpper_of_digits _ hdigits]
    · rcases g3 with h3 | h3
      · left
        rw [toUpper_eq_of_toLower (pot.getLast hne) halpha 97 (by norm_num)
          (by norm_num) (by rw [h3]; rfl)]
      · right
        rw [toUpper_eq_of_toLower (pot.getLast hne) halpha 98 (by norm_num)
          (by norm_num) (by rw [h3]; rfl)]

/-- C9: For every playlist name that is `None` or whose last three
characters contain at least one alphanumeric character, `attempt_get_key`
returns without raising (the empty-string indexing is unreachable),
yielding either `None` or the uppercased camelot key: a number 1–12
followed by `'A'` or `'B'`. -/
theorem C9_attempt_get_key_safety (playlist_name : Option (List Char))
    (h : playlist_name = none ∨ ∃ s, playlist_name = some s ∧
        (pySliceLastThree s).any Char.isAlphanum = true) :
    ∃ r, attempt_get_key playlist_name = Except.ok r ∧
      (r = none ∨ ∃ k, r = some k ∧ IsCamelotKey k) := by
  rcases h with h | ⟨s, hs, hany⟩
  · subst h
    exact ⟨none, rfl, Or.inl rfl⟩
  · subst hs
    exact attemptGetKeySome_ok s hany

/-- Python dict lookup `d.get(k, None)` on an insertion-ordered dict
modelled as an association list (keys are unique in a real dict, so first
match is the match). -/
def lookupDict (m : List (String × String)) (k : String) : Option String :=
  match m with
  | [] => none
  | p :: rest => if p.1 = k then some p.2 else lookupDict rest k

/-- Python dict assignment `d[k] = v`: overwrite in place when the key
exists, otherwise append at the end (insertion order). -/
def dictSet (m : List (String × String)) (k v : String) : List (String × String) :=
  if m.any (fun p => decide (p.1 = k)) then
    m.map (fun p => if p.1 = k then (k, v) else p)
  else m ++ [(k, v)]

/-- Function `ensure_track_db_schema` (`functions.py`), projected to the
`content → spotify` table the sync engine reads and writes: a missing or
null document (or missing/null subtable) becomes the empty table. -/
def ensure_track_db_schema (track_id_db : Option (List (String × String))) :
    List (String × String) :=
  match track_id_db with
  | none => []
  | some m => m

/-- Merge `deepmerge.always_merger.merge(track_id_db, id_overrides_db)`
(`sync.py` line 124) restricted to the `content.spotify` string→string
table: every override pair is written into the base table, overrides
winning on key collision and new keys appended. -/
def mergeTrackDb (base overrides : List (String × String)) :
    List (String × String) :=
  overrides.foldl (fun acc p => dictSet acc p.1 p.2) base

/-- The in-memory `track_id_db` table at the end of a run (`sync.py`
lines 122–124 load and merge; line 361 records each learned match with
`track_id_db['content']['spotify'][sp_track_id] = rb_track.ID`). -/
def trackDbAfterRun (learned overrides : Option (List (String × String)))
    (recordings : List (String × String)) : List (String × String) :=
  recordings.foldl (fun acc p => dictSet acc p.1 p.2)
    (mergeTrackDb (ensure_track_db_schema learned)
      (ensure_track_db_schema overrides))

/-- The document `save_dbs` (`sync.py` lines 597–599) writes to the
learned-cache file: `set_track_id_db(track_id_db)` persists the in-memory
(override-merged) table itself. -/
def persistedTrackDb (learned overrides : Option (List (String × String)))
    (recordings : List (String × String)) : List (String × String) :=
  trackDbAfterRun learned overrides recordings

/-- What claim C2 says is persisted: the loaded learned cache plus the
mappings recorded during the run, with no pair coming only from the
override table. -/
def specPersistedTrackDb (learned : Option (List (String × String)))
    (recordings : List (String × String)) : List (String × String) :=
  recordings.foldl (fun acc p => dictSet acc p.1 p.2)
    (ensure_track_db_schema learned)

theorem lookupDict_map_overwrite_self (m : List (String × String)) (k v : String)
    (hany : m.any (fun p => decide (p.1 = k)) = true) :
    lookupDict (m.map (fun p => if p.1 = k then (k, v) else p)) k = some v := by
  induction m with
  | nil => simp at hany
  | cons p rest ih =>
    by_cases hp : p.1 = k
    · simp [List.map_cons, if_pos hp, lookupDict]
    · simp only [List.any_cons, decide_eq_true_eq, Bool.or_eq_true] at hany
      simp only [List.map_cons, if_neg hp, lookupDict, if_neg hp]
      exact ih (by

        rcases hany with hany | hany
        · exact absurd hany hp
        · exact hany)

theorem lookupDict_append_single_self (m : List (String × String)) (k v : String)
    (hany : m.any (fun p => decide (p.1 = k)) = false) :
    lookupDict (m ++ [(k, v)]) k = some v := by
  induction m with
  | nil => simp [lookupDict]
  | cons p rest ih =>
    simp only [List.any_cons, Bool.or_eq_false_iff, decide_eq_false_iff_not] at hany
    simp only [List.cons_append, lookupDict, if_neg hany.1]
    exact ih (by simpa [decide_eq_false_iff_not] using hany.2)

theorem lookupDict_dictSet_self (m : List (String × String)) (k v : String) :
    lookupDict (dictSet m k v) k = some v := by
  unfold dictSet
  by_cases hany : m.any (fun p => decide (p.1 = k)) = true
  · rw [if_pos hany]
    exact lookupDict_map_overwrite_self m k v hany
  · rw [if_neg hany]
    exact lookupDict_append_single_self m k v (Bool.not_eq_true _ ▸ hany)

theorem lookupDict_map_overwrite_ne (m : List (String × String)) (k k' v : String)
    (h : k' ≠ k) :
    lookupDict (m.map (fun p => if p.1 = k' then (k', v) else p)) k =
      lookupDict m k := by
  induction m with
  | nil => rfl
  | cons p rest ih =>
    by_cases hp : p.1 = k'
    · have hpk : ¬ p.1 = k := fun hh => h (hp.symm.trans hh)
      simp only [List.map_cons, if_pos hp, lookupDict, if_neg h, if_neg hpk, ih]
    · simp only [List.map_cons, if_neg hp, lookupDict]
      by_cases hpk : p.1 = k
      · simp [hpk]
      · simp [hpk, ih]

theorem lookupDict_append_single_ne (m : List (String × String)) (k k' v : String)
    (h : k' ≠ k) : lookupDict (m ++ [(k', v)]) k = lookupDict m k := by
  induction m with
  | nil => simp [lookupDict, h]
  | cons p rest ih =>
    simp only [List.cons_append, lookupDict]
    by_cases hpk : p.1 = k
    · simp [hpk]
    · simp [hpk, ih]

theorem lookupDict_dictSet_ne (m : List (String × String)) (k k' v : String)
    (h : k' ≠ k) : lookupDict (dictSet m k' v) k = lookupDict m k := by
  unfold dictSet
  by_cases hany : m.any (fun p => decide (p.1 = k')) = true
  · rw [if_pos hany]
    exact lookupDict_map_overwrite_ne m k k' v h
  · rw [if_neg hany]
    exact lookupDict_append_single_ne m k k' v h

theorem lookupDict_foldl_dictSet_of_ne (recordings base : List (String × String))
    (k : String) (h : ∀ p ∈ recordings, p.1 ≠ k) :
    lookupDict (recordings.foldl (fun acc p => dictSet acc p.1 p.2) base) k =
      lookupDict base k := by
  induction recordings generalizing base with
  | nil => rfl
  | cons p rest ih =>
    simp only [List.foldl_cons]
    rw [ih (dictSet base p.1 p.2) (fun q hq => h q (List.mem_cons_of_mem p hq)),
      lookupDict_dictSet_ne base k p.1 p.2 (h p (List.mem_cons_self p rest))]

theorem lookupDict_mergeTrackDb_of_override (ov : List (String × String))
    (base : List (String × String)) (k v : String)
    (hnodup : (ov.map Prod.fst).Nodup) (hkv : lookupDict ov k = some v) :
    lookupDict (mergeTrackDb base ov) k = some v := by
  induction ov generalizing base with
  | nil => cases hkv
  | cons q rest ih =>
    rw [List.map_cons, List.nodup_cons] at hnodup
    simp only [mergeTrackDb, List.foldl_cons]
    by_cases hq : q.1 = k
    · rw [lookupDict, if_pos hq] at hkv
      have hv := Option.some.inj hkv
      have hrest : ∀ p ∈ rest, p.1 ≠ k := by
        intro p hp hpk
        apply hnodup.1
        have hm : p.1 ∈ rest.map Prod.fst := List.mem_map_of_mem Prod.fst hp
        rwa [hpk, ← hq] at hm
      rw [lookupDict_foldl_dictSet_of_ne rest _ k hrest,
        show dictSet base q.1 q.2 = dictSet base k v by rw [hq, hv]]
      exact lookupDict_dictSet_self base k v
    · rw [lookupDict, if_neg hq] at hkv
      exact ih (dictSet base q.1 q.2) hnodup.2 hkv

/-- C2 counterexample: A key/value pair that originates only from
the override table *is* written back to the learned-cache document:
`sync.py` merges the overrides into `track_id_db` (line 124) and
`save_dbs` then persists that merged dict via `set_track_id_db`
(line 599).  With an empty learned cache, one override pair and no run
recordings, the persisted document is the override pair — not the empty
document (loaded cache plus recordings) that the claim predicts. -/
theorem C2_persist_counterexample :
    persistedTrackDb (some []) (some [("spid1", "rbid1")]) [] =
        [("spid1", "rbid1")] ∧
      specPersistedTrackDb (some []) [] = [] ∧
      persistedTrackDb (some []) (some [("spid1", "rbid1")]) [] ≠
        specPersistedTrackDb (some []) [] := by
  refine ⟨rfl, rfl, ?_⟩
  decide

/-- C2 amended: `save_dbs` persists the override-merged in-memory
table: the learned-cache document written at the end of a run is the
merge of the loaded learned cache with the override table plus the
mappings recorded during the run.  In particular every override pair
whose key is not re-recorded during the run is written back to the
learned-cache file (contrary to the original claim). -/
theorem C2_amended_persist_writes_merged
    (learned overrides : Option (List (String × String)))
    (recordings : List (String × String)) (k v : String)
    (hnodup : ((ensure_track_db_schema overrides).map Prod.fst).Nodup)
    (hkv : lookupDict (ensure_track_db_schema overrides) k = some v)
    (hnr : ∀ p ∈ recordings, p.1 ≠ k) :
    lookupDict (persistedTrackDb learned overrides recordings) k = some v := by
  unfold persistedTrackDb trackDbAfterRun
  rw [lookupDict_foldl_dictSet_of_ne recordings _ k hnr]
  exact lookupDict_mergeTrackDb_of_override _ _ k v hnodup hkv

theorem C2_amended_persist_writes_merged_witness :
    (((ensure_track_db_schema (some [("spid1", "rbid1")])).map Prod.fst).Nodup ∧
      lookupDict (ensure_track_db_schema (some [("spid1", "rbid1")])) "spid1" =
        some "rbid1" ∧
      (∀ p ∈ [("spid2", "rbid2")], p.1 ≠ "spid1")) ∧
    lookupDict (persistedTrackDb (some [("spid0", "rbid0")])
        (some [("spid1", "rbid1")]) [("spid2", "rbid2")]) "spid1" = some "rbid1" :=
  ⟨⟨by decide, by decide, by decide⟩,
    C2_amended_persist_writes_merged (some [("spid0", "rbid0")])
      (some [("spid1", "rbid1")]) [("spid2", "rbid2")] "spid1" "rbid1"
      (by decide) (by decide) (by decide)⟩

/-- The cached-id resolution of `sync_playlist` (`sync.py` lines 346–348):
`rb_track_id = track_id_db['content']['spotify'].get(sp_track_id, None)`
and, when that is not `None`, the first library track with that ID. -/
def resolveCachedTrack (track_id_db : List (String × String))
    (rb_all_tracks : List RbTrack) (sp_track_id : String) : Option RbTrack :=
  match lookupDict track_id_db sp_track_id with
  | some rb_track_id =>
    first_or_none (rb_all_tracks.filter (fun t => decide (t.ID = rb_track_id)))
  | none => none

/-- The per-track match step of `sync_playlist` (`sync.py` lines 345–361),
instrumented with whether the fuzzy search path (`find_track` over the
whole library) was invoked.  (On a fuzzy hit the code also records the
learned mapping, line 361, which does not affect the returned pair.) -/
def lookupStep (track_id_db : List (String × String)) (rb_all_tracks : List RbTrack)
    (ratio : List Char → List Char → ℕ)
    (sp_track_artist_str sp_track_name_str : List Char) (sp_track_id : String) :
    Option RbTrack × Bool :=
  match resolveCachedTrack track_id_db rb_all_tracks sp_track_id with
  | some rb_track => (some rb_track, false)
  | none =>
    ((first_or_none (find_track ratio
        (Query.pair sp_track_artist_str sp_track_name_str)
        rb_all_tracks 80 true)).map Prod.fst, true)

/-- C7 counterexample: A source id that *is* present in the merged
ID-mapping table can still trigger the fuzzy search: when the mapped
local id does not occur in the library (`rb_track` resolves to `None` at
line 348), the `else` branch at line 352 invokes `find_track`. -/
theorem C7_cached_id_counterexample :
    lookupDict [("sp1", "999")] "sp1" ≠ none ∧
      (lookupStep [("sp1", "999")] [⟨"1", ['x'], ['y']⟩] (fun _ _ => 0)
        ['a'] ['b'] "sp1").2 = true := by
  refine ⟨by decide, ?_⟩
  decide

/-- C7 amended: The fuzzy search is skipped exactly when the cached
mapping resolves: if the merged table maps the source id to a local id
that is present in the library, `find_track` is not invoked for that
track. -/
theorem C7_amended_cached_id_skips_fuzzy (track_id_db : List (String × String))
    (rb_all_tracks : List RbTrack) (ratio : List Char → List Char → ℕ)
    (a t : List Char) (sid tid : String)
    (h1 : lookupDict track_id_db sid = some tid)
    (h2 : ∃ tr ∈ rb_all_tracks, tr.ID = tid) :
    (lookupStep track_id_db rb_all_tracks ratio a t sid).2 = false := by
  obtain ⟨tr, htr, hid⟩ := h2
  have hne : rb_all_tracks.filter (fun x => decide (x.ID = tid)) ≠ [] :=
    List.ne_nil_of_mem (List.mem_filter.mpr ⟨htr, by simp [hid]⟩)
  have hres : resolveCachedTrack track_id_db rb_all_tracks sid =
      some ((rb_all_tracks.filter (fun x => decide (x.ID = tid))).head hne) := by
    unfold resolveCachedTrack
    rw [h1]
    exact List.head?_eq_head hne
  unfold lookupStep
  rw [hres]

theorem C7_amended_cached_id_skips_fuzzy_witness :
    (lookupDict [("s1", "7")] "s1" = some "7" ∧
      ∃ tr ∈ [(⟨"7", ['x'], ['y']⟩ : RbTrack)], tr.ID = "7") ∧
    (lookupStep [("s1", "7")] [⟨"7", ['x'], ['y']⟩] (fun _ _ => 0)
      ['a'] ['b'] "s1").2 = false :=
  ⟨⟨by decide, ⟨⟨"7", ['x'], ['y']⟩, by decide, rfl⟩⟩,
    C7_amended_cached_id_skips_fuzzy [("s1", "7")] [⟨"7", ['x'], ['y']⟩]
      (fun _ _ => 0) ['a'] ['b'] "s1" "7" (by decide)
      ⟨⟨"7", ['x'], ['y']⟩, by decide, rfl⟩⟩

/-- A row of the missing-tracks document (`sync.py` lines 337–343). -/
structure MissingEntry where
  artist : String
  title : String
  itunes_url : Option String
  ignored : Bool
  date_added : String
deriving DecidableEq, Repr

/-- The outcome the iTunes collaborators (`iGet.get`, `find_best_match`,
`generate_itunes_store_url`) would produce if called, as observed by
`attempt_add_track_to_missing_db`: a URL, no URL, the specific
`JSONDecodeError('Expecting value: line 1 column 1 (char 0)')` rate-limit
signature, or any other exception. -/
inductive LookupOutcome where
  | found (url : String)
  | notFound
  | rateLimited
  | failed
deriving DecidableEq, Repr

/-- Result of one `attempt_add_track_to_missing_db` call: the entry written
into `missing_tracks_db[sp_track_id]`, whether the iTunes lookup was
attempted, and the new value of the nonlocal `itunes_rate_limit_reached`
flag. -/
structure RecordResult where
  entry : MissingEntry
  lookupAttempted : Bool
  rateLimitFlag : Bool
deriving DecidableEq, Repr

/-- Function `attempt_add_track_to_missing_db` (`sync.py` lines 284–343).
`existing_entry` is `missing_tracks_db.get(sp_track['id'], {})` (`none` =
no entry).  `parseDate` models `datetime.fromisoformat` after the
`'Z' → '+00:00'` substitution (`none` = raises, landing in the bare
`except`), `fmtDate` models `.isoformat()`, and `lookup` is the iTunes
collaborators' outcome.  The written entry always carries
`'ignored': False` (line 341). -/
def attempt_add_track_to_missing_db
    (parseDate : String → Option ℤ) (fmtDate : ℤ → String)
    (lookup : LookupOutcome) (itunes_rate_limit_reached : Bool)
    (existing_entry : Option MissingEntry)
    (sp_track_artist_str sp_track_name_str sp_track_added_at : String) :
    RecordResult :=
  let existing_url : Option String :=
    match existing_entry with
    | some e => e.itunes_url
    | none => none
  let step : Option String × Bool × Bool :=
    match existing_url with
    | some u => (some u, false, itunes_rate_limit_reached)
    | none =>
      if itunes_rate_limit_reached then (none, false, itunes_rate_limit_reached)
      else
        match lookup with
        | LookupOutcome.found u => (some u, true, itunes_rate_limit_reached)
        | LookupOutcome.notFound => (none, true, itunes_rate_limit_reached)
        | LookupOutcome.rateLimited => (none, true, true)
        | LookupOutcome.failed => (none, true, itunes_rate_limit_reached)
  let existing_date_added : Option String :=
    match existing_entry with
    | some e => if e.date_added = "" then none else some e.date_added
    | none => none
  let final_date_added : String :=
    match existing_date_added with
    | some d =>
      match parseDate d, parseDate sp_track_added_at with
      | some existing_dt, some playlist_added_dt =>
        fmtDate (max existing_dt playlist_added_dt)
      | some _, none => sp_track_added_at
      | none, _ => sp_track_added_at
    | none => sp_track_added_at
  { entry :=
      { artist := sp_track_artist_str
        title := sp_track_name_str
        itunes_url := step.1
        ignored := false
        date_added := final_date_added }
    lookupAttempted := step.2.1
    rateLimitFlag := step.2.2 }

/-- C8 counterexample: Two deviations from the claim at concrete
inputs.  First, the `ignored` flag of an existing entry is not preserved:
the rewritten entry always carries `ignored = false` (line 341), so an
existing `ignored = true` entry comes out `false`.  Second, for an
existing entry whose purchase link is null, the claim says the link is
preserved (the lookup belongs only to the fresh-entry path), but the code
re-attempts the lookup and can fill the link in. -/
theorem C8_record_missing_counterexample :
    ((attempt_add_track_to_missing_db (fun _ => none) (fun _ => "")
        LookupOutcome.notFound false
        (some ⟨"ar", "ti", some "u", true, "d"⟩) "ar2" "ti2" "t1").entry.ignored
      = false) ∧
    ((attempt_add_track_to_missing_db (fun _ => none) (fun _ => "")
        (LookupOutcome.found "newurl") false
        (some ⟨"ar", "ti", none, false, "d"⟩) "ar2" "ti2" "t1").lookupAttempted
      = true) ∧
    ((attempt_add_track_to_missing_db (fun _ => none) (fun _ => "")
        (LookupOutcome.found "newurl") false
        (some ⟨"ar", "ti", none, false, "d"⟩) "ar2" "ti2" "t1").entry.itunes_url
      = some "newurl") := by
  refine ⟨rfl, rfl, rfl⟩

/-- C8 amended: What the recorder actually guarantees:
(1) an existing entry's non-null purchase link is preserved and the
lookup is not re-attempted; (2) an existing entry with a null link
re-attempts the lookup under the same rate-limit gating as a fresh entry
(silently skipped, link left null, when the session flag is set);
(3) the written entry's `ignored` flag is always `false` (the caller
only invokes the recorder for non-ignored tracks, line 374);
(4) `dateAdded` is the max of the existing and playlist timestamps when
both parse, the playlist timestamp otherwise, and the playlist timestamp
for fresh entries. -/
theorem C8_record_missing_amended
    (parseDate : String → Option ℤ) (fmtDate : ℤ → String)
    (lookup : LookupOutcome) (rl : Bool) (existing : Option MissingEntry)
    (ar ti added : String) :
    ((attempt_add_track_to_missing_db parseDate fmtDate lookup rl existing
        ar ti added).entry.ignored = false) ∧
    (∀ e u, existing = some e → e.itunes_url = some u →
      (attempt_add_track_to_missing_db parseDate fmtDate lookup rl existing
          ar ti added).entry.itunes_url = some u ∧
      (attempt_add_track_to_missing_db parseDate fmtDate lookup rl existing
          ar ti added).lookupAttempted = false) ∧
    ((match existing with
      | some e => e.itunes_url = none
      | none => True) → rl = true →
      (attempt_add_track_to_missing_db parseDate fmtDate lookup rl existing
          ar ti added).lookupAttempted = false ∧
      (attempt_add_track_to_missing_db parseDate fmtDate lookup rl existing
          ar ti added).entry.itunes_url = none) ∧
    (∀ e d1 d2, existing = some e → e.date_added ≠ "" →
      parseDate e.date_added = some d1 → parseDate added = some d2 →
      (attempt_add_track_to_missing_db parseDate fmtDate lookup rl existing
          ar ti added).entry.date_added = fmtDate (max d1 d2)) ∧
    (existing = none →
      (attempt_add_track_to_missing_db parseDate fmtDate lookup rl existing
          ar ti added).entry.date_added = added) := by
  refine ⟨rfl, ?_, ?_, ?_, ?_⟩
  · rintro e u rfl hu
    simp [attempt_add_track_to_missing_db, hu]
  · intro hnull hrl
    subst hrl
    cases existing with
    | none => exact ⟨rfl, rfl⟩
    | some e =>
      have hnull' : e.itunes_url = none := hnull
      simp [attempt_add_track_to_missing_db, hnull']
  · rintro e d1 d2 rfl hne h1 h2
    simp only [attempt_add_track_to_missing_db, if_neg hne, h1, h2]
  · rintro rfl
    rfl

theorem C8_record_missing_amended_witness :
    ((some (⟨"ar", "ti", some "u", false, "5"⟩ : MissingEntry) =
        some ⟨"ar", "ti", some "u", false, "5"⟩) ∧
      (⟨"ar", "ti", some "u", false, "5"⟩ : MissingEntry).itunes_url = some "u") ∧
    ((attempt_add_track_to_missing_db (fun s => s.toInt?) (fun z => toString z)
        LookupOutcome.notFound false (some ⟨"ar", "ti", some "u", false, "5"⟩)
        "ar" "ti" "9").entry.itunes_url = some "u" ∧
      (attempt_add_track_to_missing_db (fun s => s.toInt?) (fun z => toString z)
        LookupOutcome.notFound false (some ⟨"ar", "ti", some "u", false, "5"⟩)
        "ar" "ti" "9").lookupAttempted = false) :=
  ⟨⟨rfl, rfl⟩,
    (C8_record_missing_amended (fun s => s.toInt?) (fun z => toString z)
        LookupOutcome.notFound false (some ⟨"ar", "ti", some "u", false, "5"⟩)
        "ar" "ti" "9").2.1 ⟨"ar", "ti", some "u", false, "5"⟩ "u" rfl rfl⟩

/-- A raw custom-track directive as read from the custom-tracks document
(one element of `custom_tracks_db['custom_tracks']['spotify'][playlist_id]`,
`sync.py` lines 401–403).  `rekordbox_id` is already the result of
`str(custom_track['rekordbox_id'])` (line 418), so the `== None` check at
line 419 can never fire and has no counterpart here. -/
structure CustomTrackCfg where
  rekordbox_id : String
  type? : Option String
  index? : Option Int
  offset? : Option Int
  position? : Option Int
  target? : Option String
deriving DecidableEq, Repr

/-- The `CustomTrack` namedtuple (`sync.py` line 20). -/
structure CustomTrack where
  rekordbox_id : String
  index : Option Int
  target : Option String
deriving DecidableEq, Repr

/-- What one iteration of the directive loop does with a directive. -/
inductive DirectiveAction where
  | skip
  | insert (c : CustomTrack)
  | replace (c : CustomTrack)
deriving DecidableEq, Repr

/-- The number of position fields provided (`sync.py` lines 433–439). -/
def positionFieldCount (ct : CustomTrackCfg) : ℕ :=
  (if ct.index?.isSome then 1 else 0) + (if ct.offset?.isSome then 1 else 0) +
    (if ct.position?.isSome then 1 else 0)

/-- The `c_index` resolution (`sync.py` lines 445–453): `index`, else `offset`,
else 1-based `position` minus one. -/
def directiveIndex (ct : CustomTrackCfg) : Option Int :=
  match ct.index? with
  | some i => some i
  | none =>
    match ct.offset? with
    | some o => some o
    | none =>
      match ct.position? with
      | some p => some (p - 1)
      | none => none

/-- One iteration of the directive-validation loop (`sync.py` lines
417–468).  `known_track_ids` are the IDs of `rb_all_tracks` (the `c_rb`
lookup at line 426).  `Except.error` models the `ValueError` raised at
line 442 when more than one of `index`/`offset`/`position` is given. -/
def classifyDirective (known_track_ids : List String) (ct : CustomTrackCfg) :
    Except String DirectiveAction :=
  if known_track_ids.contains ct.rekordbox_id = false then
    Except.ok DirectiveAction.skip
  else if positionFieldCount ct > 1 then
    Except.error ct.rekordbox_id
  else if ct.type?.getD "insert" = "insert" then
    Except.ok (DirectiveAction.insert
      ⟨ct.rekordbox_id, directiveIndex ct, ct.target?⟩)
  else if ct.type?.getD "insert" = "replace" then
    Except.ok (DirectiveAction.replace
      ⟨ct.rekordbox_id, directiveIndex ct, ct.target?⟩)
  else Except.ok DirectiveAction.skip

/-- The whole directive-validation loop: partitions the directives into
`tracks_to_insert` and `tracks_to_replace` in declaration order, and
propagates the first `ValueError` the way the Python exception aborts the
loop. -/
def collectDirectives (known_track_ids : List String) :
    List CustomTrackCfg → Except String (List CustomTrack × List CustomTrack)
  | [] => Except.ok ([], [])
  | ct :: rest =>
    match classifyDirective known_track_ids ct with
    | Except.error e => Except.error e
    | Except.ok act =>
      match collectDirectives known_track_ids rest with
      | Except.error e => Except.error e
      | Except.ok (ins, rep) =>
        match act with
        | DirectiveAction.skip => Except.ok (ins, rep)
        | DirectiveAction.insert c => Except.ok (c :: ins, rep)
        | DirectiveAction.replace c => Except.ok (ins, c :: rep)

/-- An entry of `rb_playlist_tracks_by_index` (`sync.py` line 479):
`(original 1-based index or None for customs, track id, is_custom)`. -/
structure PlaylistEntry where
  origIndex : Option Int
  trackId : String
  isCustom : Bool
deriving DecidableEq, Repr

/-- The initial entry list (`sync.py` lines 479–482): enumerate the song
queue from 1, keeping only the non-`None` tracks (with their original
enumeration index). -/
def initialEntries (queue : List (Option String)) : List PlaylistEntry :=
  (List.enumFrom 1 queue).filterMap (fun p =>
    match p.2 with
    | some tid => some ⟨some (p.1 : Int), tid, false⟩
    | none => none)

/-- Target-index resolution for one insert directive (`sync.py` lines
486–511): target-relative lookup (default offset 0, first entry whose
track id equals the target, append-at-end fallback when the target is
missing), then the out-of-bounds clamp to append-at-end. -/
def resolveInsertIndex (entries : List PlaylistEntry) (c : CustomTrack) :
    Option Int :=
  let target_index : Option Int :=
    match c.target with
    | some target_track_id =>
      match entries.find? (fun e => decide (e.trackId = target_track_id)) with
      | some e => some ((e.origIndex.getD 0) + (c.index.getD 0))
      | none => none
    | none => c.index
  match target_index with
  | some ti => if ti < 0 ∨ ti > (entries.length : Int) then none else some ti
  | none => none

/-- Grouping step `tracks_to_insert_grouped[target_index].append(rb_id)` with dict
creation on first use (`sync.py` lines 513–517); the dict is
insertion-ordered. -/
def groupSet (groups : List (Option Int × List String)) (key : Option Int)
    (rb_id : String) : List (Option Int × List String) :=
  if groups.any (fun g => decide (g.1 = key)) then
    groups.map (fun g => if g.1 = key then (g.1, g.2 ++ [rb_id]) else g)
  else groups ++ [(key, [rb_id])]

/-- The grouping loop over `tracks_to_insert` (`sync.py` lines 485–517). -/
def groupInserts (entries : List PlaylistEntry)
    (tracks_to_insert : List CustomTrack) : List (Option Int × List String) :=
  tracks_to_insert.foldl
    (fun gs c => groupSet gs (resolveInsertIndex entries c) c.rekordbox_id) []

/-- Pop step `tracks_to_insert_grouped.pop(None, [])` (`sync.py` line 520). -/
def noneGroup (groups : List (Option Int × List String)) : List String :=
  match groups.find? (fun g => decide (g.1 = none)) with
  | some g => g.2
  | none => []

/-- The remaining groups after the pop, in insertion order. -/
def intGroups (groups : List (Option Int × List String)) :
    List (Int × List String) :=
  groups.filterMap (fun g =>
    match g.1 with
    | some i => some (i, g.2)
    | none => none)

/-- Appending the unresolvable inserts at the end (`sync.py` lines
521–523). -/
def appendNoneInserts (entries : List PlaylistEntry) (ids : List String) :
    List PlaylistEntry :=
  entries ++ ids.map (fun rb_id => ⟨none, rb_id, true⟩)

/-- The insertion-point scan (`sync.py` lines 526–534): the first position
whose original index exists and exceeds `target_index` (custom entries,
whose original index is `None`, never match the comparison); if no
position qualifies, the end of the list. -/
def findInsertIndex (entries : List PlaylistEntry) (target_index : Int) : ℕ :=
  match entries with
  | [] => 0
  | e :: rest =>
    match e.origIndex with
    | some oi =>
      if oi > target_index then 0 else findInsertIndex rest target_index + 1
    | none => findInsertIndex rest target_index + 1

/-- Splicing one group in at its insertion point (`sync.py` lines
538–543): the group's entries are inserted consecutively, in declaration
order, each tagged `(target_index, rb_id, True)`. -/
def insertGroup (entries : List PlaylistEntry) (target_index : Int)
    (ids : List String) : List PlaylistEntry :=
  entries.take (findInsertIndex entries target_index) ++
    ids.map (fun rb_id => ⟨some target_index, rb_id, true⟩) ++
    entries.drop (findInsertIndex entries target_index)

/-- The loop over the remaining groups (`sync.py` lines 525–543). -/
def applyInsertGroups (entries : List PlaylistEntry)
    (gs : List (Int × List String)) : List PlaylistEntry :=
  gs.foldl (fun es g => insertGroup es g.1 g.2) entries

/-- Index-targeted replace (`sync.py` lines 547–558): the first non-custom
entry whose original index equals `target_index + 1` is replaced by
`(target_index, rb_id, True)`; nothing happens when no entry matches. -/
def replaceByIndex : List PlaylistEntry → Int → String → List PlaylistEntry
  | [], _, _ => []
  | e :: rest, target_index, rb_id =>
    if e.origIndex = some (target_index + 1) ∧ e.isCustom = false then
      ⟨some target_index, rb_id, true⟩ :: rest
    else e :: replaceByIndex rest target_index rb_id

/-- Identifier-targeted replace (`sync.py` lines 559–570): *every* entry
whose track id equals the target is replaced, keeping its original
index.  A `None` target matches nothing. -/
def replaceByTarget (entries : List PlaylistEntry) (target : Option String)
    (rb_id : String) : List PlaylistEntry :=
  entries.map (fun e =>
    if (match target with
        | some t => decide (e.trackId = t)
        | none => false) then ⟨e.origIndex, rb_id, true⟩ else e)

/-- One replace directive (`sync.py` lines 545–570). -/
def applyReplace (entries : List PlaylistEntry) (c : CustomTrack) :
    List PlaylistEntry :=
  match c.index with
  | some target_index => replaceByIndex entries target_index c.rekordbox_id
  | none => replaceByTarget entries c.target c.rekordbox_id

/-- The loop over `tracks_to_replace`. -/
def applyReplaces (entries : List PlaylistEntry) (cs : List CustomTrack) :
    List PlaylistEntry :=
  cs.foldl applyReplace entries

/-- The custom-track splice (`sync.py` lines 479–577): build the indexed
entry list from the matched queue, group the insert directives by
resolved target index, append the unresolvable group at the end, splice
each remaining group in at its insertion point, apply the replace
directives, and read off the final ordered id list (line 576). -/
def applyCustomTracks (queue : List (Option String))
    (tracks_to_insert tracks_to_replace : List CustomTrack) : List String :=
  (applyReplaces
    (applyInsertGroups
      (appendNoneInserts (initialEntries queue)
        (noneGroup (groupInserts (initialEntries queue) tracks_to_insert)))
      (intGroups (groupInserts (initialEntries queue) tracks_to_insert)))
    tracks_to_replace).map PlaylistEntry.trackId

/-- C6: The concrete scenario: matched sequence
`[(1,"A"),(2,"B"),(3,"C")]`, one insert directive with `position = 2`
(1-based) and no target.  The position converts to `targetIndex = 1`, the
insertion point is the first entry whose original index exceeds 1 (list
position 1), and the final order is `[A, X, B, C]`. -/
theorem C6_insert_position_scenario :
    collectDirectives ["A", "B", "C", "X"]
        [⟨"X", none, none, none, some 2, none⟩] =
      Except.ok ([⟨"X", some 1, none⟩], []) ∧
    resolveInsertIndex (initialEntries [some "A", some "B", some "C"])
        ⟨"X", some 1, none⟩ = some 1 ∧
    findInsertIndex (initialEntries [some "A", some "B", some "C"]) 1 = 1 ∧
    applyCustomTracks [some "A", some "B", some "C"]
        [⟨"X", some 1, none⟩] [] = ["A", "X", "B", "C"] ∧
    (applyCustomTracks [some "A", some "B", some "C"]
        [⟨"X", some 1, none⟩] []).length = 4 := by
  refine ⟨rfl, by decide, by decide, by decide, by decide⟩

/-- The Python exception classes relevant to the orchestrator's handler:
`except Exception` (`sync.py` line 672) catches subclasses of `Exception`
(such as the `ValueError`s raised during a sync) but not
`KeyboardInterrupt`, which derives only from `BaseException`. -/
inductive PyExc where
  | exception (msg : String)
  | keyboardInterrupt
deriving DecidableEq, Repr

/-- The mutable state of a run: the merged ID-mapping table, the
missing-tracks table, and the per-playlist sync report (modelled by the
names of the playlists that have a report entry). -/
structure Stores where
  track_id_db : List (String × String)
  missing_tracks_db : List (String × MissingEntry)
  sync_report : List String
deriving DecidableEq, Repr

/-- The consumer loop (`sync.py` lines 623–655): run the per-playlist
steps in order; a step's exception aborts the loop, carrying whatever
mutations were already made.  No `save_dbs` call occurs inside the
loop. -/
def processLoop : List (Stores → Stores × Option PyExc) → Stores →
    Stores × Option PyExc
  | [], s => (s, none)
  | f :: fs, s =>
    match f s with
    | (s', none) => processLoop fs s'
    | (s', some e) => (s', some e)

/-- How control leaves `sync_spotify_playlists_to_rekordbox`. -/
inductive RunOutcome where
  | exitCode (n : ℕ)
  | uncaught (e : PyExc)
deriving DecidableEq, Repr

/-- Result of a run: the final in-memory stores, the ordered log of
`save_dbs` snapshots, and how control leaves the function. -/
structure RunResult where
  finalStores : Stores
  saveLog : List Stores
  outcome : RunOutcome
deriving DecidableEq, Repr

/-- The orchestrator's `try/except` tail (`sync.py` lines 605–682): the
loop runs inside `try`; `except Exception` (line 672) calls `save_dbs()`
and `sys.exit(130)`; a `KeyboardInterrupt` is not caught, so it
propagates with no `save_dbs` call; on normal completion `save_dbs()`
runs once after the loop (line 679), followed by `rb.commit()`. -/
def runSync (steps : List (Stores → Stores × Option PyExc)) (init : Stores) :
    RunResult :=
  match processLoop steps init with
  | (s, none) =>
    { finalStores := s, saveLog := [s], outcome := RunOutcome.exitCode 0 }
  | (s, some (PyExc.exception _)) =>
    { finalStores := s, saveLog := [s], outcome := RunOutcome.exitCode 130 }
  | (s, some PyExc.keyboardInterrupt) =>
    { finalStores := s, saveLog := []
      outcome := RunOutcome.uncaught PyExc.keyboardInterrupt }

/-- A playlist step that completes normally, learning one ID mapping and
adding its report entry. -/
def stepLearnMapping (sid rbid name : String) :
    Stores → Stores × Option PyExc :=
  fun s =>
    ({ s with track_id_db := dictSet s.track_id_db sid rbid
              sync_report := s.sync_report ++ [name] }, none)

/-- A step during which the user presses Ctrl-C. -/
def stepKeyboardInterrupt : Stores → Stores × Option PyExc :=
  fun s => (s, some PyExc.keyboardInterrupt)

/-- C1 counterexample: Two playlists, Ctrl-C during the second.
The first playlist completed and learned a mapping, yet the save log is
empty: nothing is persisted after a playlist completes (the loop has no
`save_dbs` call), and the `KeyboardInterrupt` escapes the
`except Exception` handler — so nothing is persisted on the interrupt
exit path either.  The distinct code 130 is in fact used by the
`except Exception` path, not for Ctrl-C; the interrupt propagates to
`main.py`, whose own handler exits with code 0 (same as success) without
touching the sync stores. -/
theorem C1_persistence_counterexample :
    (runSync [stepLearnMapping "sp1" "rb1" "P1", stepKeyboardInterrupt]
        ⟨[], [], []⟩).saveLog = [] ∧
    (runSync [stepLearnMapping "sp1" "rb1" "P1", stepKeyboardInterrupt]
        ⟨[], [], []⟩).outcome = RunOutcome.uncaught PyExc.keyboardInterrupt ∧
    (runSync [stepLearnMapping "sp1" "rb1" "P1", stepKeyboardInterrupt]
        ⟨[], [], []⟩).finalStores.track_id_db = [("sp1", "rb1")] := by
  refine ⟨rfl, rfl, rfl⟩

/-- C1 amended: What the orchestrator actually guarantees: the
stores are persisted exactly once per run, at exit, and only on the exit
paths the `except Exception` handler or the normal tail reach — normal
completion (then the final stores are written) and uncaught errors
deriving from `Exception` (then the final stores are written and the
process exits with code 130).  On a `KeyboardInterrupt` nothing is
persisted and the exception propagates.  No persistence happens after
each playlist (the save log never has more than one snapshot). -/
theorem C1_amended_persistence (steps : List (Stores → Stores × Option PyExc))
    (init : Stores) :
    ((runSync steps init).outcome ≠ RunOutcome.uncaught PyExc.keyboardInterrupt →
      (runSync steps init).saveLog = [(runSync steps init).finalStores]) ∧
    ((runSync steps init).outcome = RunOutcome.uncaught PyExc.keyboardInterrupt →
      (runSync steps init).saveLog = []) ∧
    (∀ s m, processLoop steps init = (s, some (PyExc.exception m)) →
      (runSync steps init).outcome = RunOutcome.exitCode 130) ∧
    (∀ s, processLoop steps init = (s, some PyExc.keyboardInterrupt) →
      (runSync steps init).outcome = RunOutcome.uncaught PyExc.keyboardInterrupt) ∧
    (runSync steps init).saveLog.length ≤ 1 := by
  rcases hloop : processLoop steps init with ⟨s, exc⟩
  match exc with
  | none =>
    refine ⟨?_, ?_, ?_, ?_, ?_⟩ <;>
      simp_all [runSync]
  | some (PyExc.exception m) =>
    refine ⟨?_, ?_, ?_, ?_, ?_⟩ <;>
      simp_all [runSync]
  | some PyExc.keyboardInterrupt =>
    refine ⟨?_, ?_, ?_, ?_, ?_⟩ <;>
      simp_all [runSync]

theorem C1_amended_persistence_witness :
    ((runSync [stepLearnMapping "sp1" "rb1" "P1"] ⟨[], [], []⟩).outcome ≠
        RunOutcome.uncaught PyExc.keyboardInterrupt) ∧
    (runSync [stepLearnMapping "sp1" "rb1" "P1"] ⟨[], [], []⟩).saveLog =
      [(runSync [stepLearnMapping "sp1" "rb1" "P1"] ⟨[], [], []⟩).finalStores] :=
  ⟨by decide,
    (C1_amended_persistence [stepLearnMapping "sp1" "rb1" "P1"] ⟨[], [], []⟩).1
      (by decide)⟩

/-- The playlist-processing step for a playlist whose custom-track list is
`cfgs` (`sync.py` lines 415–468 inside `sync_playlist`, called from the
loop at line 653): directive validation runs first; a `ValueError` from
it propagates out of `sync_playlist` as an `Exception`-class exception
(no report entry is added); otherwise the playlist completes and its
report entry is added at line 654. -/
def playlistStepWithDirectives (known_track_ids : List String)
    (cfgs : List CustomTrackCfg) (name : String) :
    Stores → Stores × Option PyExc :=
  fun s =>
    match collectDirectives known_track_ids cfgs with
    | Except.error m => (s, some (PyExc.exception m))
    | Except.ok _ => ({ s with sync_report := s.sync_report ++ [name] }, none)

/-- C3 counterexample: A directive giving both `index` and
`position` does not degrade to a warning: `classifyDirective` raises
(`ValueError`, line 442), and at run level a playlist containing it
aborts the whole run — the run exits with code 130 and the following
playlist is never processed (its report entry is missing), contradicting
"processing of the current playlist and of the remaining playlists
continues". -/
theorem C3_conflicting_position_counterexample :
    collectDirectives ["X"] [⟨"X", none, some 0, none, some 2, none⟩] =
        Except.error "X" ∧
    (runSync [playlistStepWithDirectives ["X"]
          [⟨"X", none, some 0, none, some 2, none⟩] "P1",
        playlistStepWithDirectives ["X"] [] "P2"] ⟨[], [], []⟩).outcome =
      RunOutcome.exitCode 130 ∧
    (runSync [playlistStepWithDirectives ["X"]
          [⟨"X", none, some 0, none, some 2, none⟩] "P1",
        playlistStepWithDirectives ["X"] [] "P2"] ⟨[], [], []⟩).finalStores.sync_report
      = [] := by
  refine ⟨rfl, rfl, rfl⟩

/-- C3 amended: Providing more than one of the three position fields
on a directive whose `rekordbox_id` resolves is fatal to the whole run:
the `ValueError` raised at line 442 propagates out of `sync_playlist`
into the `except Exception` handler, which persists the stores and exits
the process with code 130; the remaining playlists are not processed. -/
theorem C3_amended_conflicting_position_is_fatal (known : List String)
    (ct : CustomTrackCfg) (cfgs : List CustomTrackCfg) (name : String)
    (rest : List (Stores → Stores × Option PyExc)) (init : Stores)
    (hknown : known.contains ct.rekordbox_id = true)
    (hmulti : positionFieldCount ct > 1) :
    classifyDirective known ct = Except.error ct.rekordbox_id ∧
    (runSync (playlistStepWithDirectives known (ct :: cfgs) name :: rest)
        init).outcome = RunOutcome.exitCode 130 ∧
    (runSync (playlistStepWithDirectives known (ct :: cfgs) name :: rest)
        init).saveLog =
      [(runSync (playlistStepWithDirectives known (ct :: cfgs) name :: rest)
          init).finalStores] ∧
    (runSync (playlistStepWithDirectives known (ct :: cfgs) name :: rest)
        init).finalStores.sync_report = init.sync_report := by
  have hcls : classifyDirective known ct = Except.error ct.rekordbox_id := by
    unfold classifyDirective
    rw [if_neg (by rw [hknown]; exact fun h => Bool.noConfusion h), if_pos hmulti]
  have hcoll : collectDirectives known (ct :: cfgs) =
      Except.error ct.rekordbox_id := by
    unfold collectDirectives
    rw [hcls]
  have hstep : playlistStepWithDirectives known (ct :: cfgs) name init =
      (init, some (PyExc.exception ct.rekordbox_id)) := by
    unfold playlistStepWithDirectives
    rw [hcoll]
  have hloop : processLoop
      (playlistStepWithDirectives known (ct :: cfgs) name :: rest) init =
      (init, some (PyExc.exception ct.rekordbox_id)) := by
    unfold processLoop
    rw [hstep]
  refine ⟨hcls, ?_, ?_, ?_⟩ <;> unfold runSync <;> rw [hloop]

theorem C3_amended_conflicting_position_is_fatal_witness :
    ((["X"] : List String).contains "X" = true ∧
      positionFieldCount ⟨"X", none, some 0, none, some 2, none⟩ > 1) ∧
    classifyDirective ["X"] ⟨"X", none, some 0, none, some 2, none⟩ =
      Except.error "X" ∧
    (runSync [playlistStepWithDirectives ["X"]
        [⟨"X", none, some 0, none, some 2, none⟩] "P1"] ⟨[], [], []⟩).outcome =
      RunOutcome.exitCode 130 :=
  ⟨⟨by decide, by decide⟩,
    (C3_amended_conflicting_position_is_fatal ["X"]
      ⟨"X", none, some 0, none, some 2, none⟩ [] "P1" [] ⟨[], [], []⟩
      (by decide) (by decide)).1,
    (C3_amended_conflicting_position_is_fatal ["X"]
      ⟨"X", none, some 0, none, some 2, none⟩ [] "P1" [] ⟨[], [], []⟩
      (by decide) (by decide)).2.1⟩

/-- A Rekordbox playlist node (`DjmdPlaylist`): its name and whether it is
a folder. -/
structure RbPlaylist where
  Name : List Char
  is_folder : Bool
deriving DecidableEq, Repr

/-- The library operations the playlist-creation step performs, in
order. -/
inductive RbOp where
  | deletePlaylist (p : RbPlaylist)
  | createPlaylistFolder (name : List Char)
  | createPlaylist (name : List Char) (folder : Option (List Char))
deriving DecidableEq, Repr

/-- Python `str.isupper` (ASCII model): at least one cased character and
no lower-case character. -/
def pyIsUpper (s : List Char) : Bool :=
  (s.any (fun c => c.isUpper || c.isLower)) && !(s.any Char.isLower)

/-- Python `name.split('_')` over a character list. -/
def splitOnUnderscore : List Char → List (List Char)
  | [] => [[]]
  | c :: rest =>
    if c = '_' then [] :: splitOnUnderscore rest
    else
      match splitOnUnderscore rest with
      | [] => [[c]]
      | g :: gs => (c :: g) :: gs

/-- The folder-name rule (`sync.py` lines 247–258): when the playlist name
splits on `'_'` into more than one part and the first part is upper-case,
the folder is that part with `'S'` appended. -/
def playlistFolderName (sp_playlist_name : List Char) : Option (List Char) :=
  if (splitOnUnderscore sp_playlist_name).length > 1 then
    match (splitOnUnderscore sp_playlist_name).head? with
    | some potential_folder_name =>
      if pyIsUpper potential_folder_name then
        some (potential_folder_name ++ ['S'])
      else none
    | none => none
  else none

/-- The playlist-creation step of `sync_playlist` (`sync.py` lines
240–270) as the ordered list of library operations it performs: delete
the first playlist whose name equals the remote playlist's name if one
exists (lines 241–245), then locate or create the folder (lines 262–267,
using the fresh `rb.get_playlist()` snapshot `current_playlists` of line
264), then create the playlist (line 268 or 270). -/
def createPlaylistStep (rb_playlists current_playlists : List RbPlaylist)
    (sp_playlist_name : List Char) : List RbOp :=
  (match first_or_none
      (rb_playlists.filter (fun p => decide (p.Name = sp_playlist_name))) with
   | some rb_playlist_with_same_name =>
     [RbOp.deletePlaylist rb_playlist_with_same_name]
   | none => []) ++
  (match playlistFolderName sp_playlist_name with
   | some folder_name =>
     (match first_or_none (current_playlists.filter
         (fun p => decide (p.Name = folder_name) && p.is_folder)) with
      | some _ => []
      | none => [RbOp.createPlaylistFolder folder_name]) ++
     [RbOp.createPlaylist sp_playlist_name (some folder_name)]
   | none => [RbOp.createPlaylist sp_playlist_name none])

/-- C10: If the local library already contains a playlist with the
remote playlist's name, the creation step's first operation deletes the
(first) such playlist — whose name indeed equals the remote name — and
its last operation creates the new playlist with that name: the deletion
strictly precedes the creation, so re-syncing replaces the same-named
local playlist instead of duplicating it. -/
theorem C10_same_named_playlist_replaced
    (rb_playlists current_playlists : List RbPlaylist) (name : List Char)
    (p : RbPlaylist)
    (hfirst : first_or_none
        (rb_playlists.filter (fun q => decide (q.Name = name))) = some p) :
    p.Name = name ∧
    (createPlaylistStep rb_playlists current_playlists name).head? =
      some (RbOp.deletePlaylist p) ∧
    (∃ folder, (createPlaylistStep rb_playlists current_playlists name).getLast? =
      some (RbOp.createPlaylist name folder)) := by
  have hmem : p ∈ rb_playlists.filter (fun q => decide (q.Name = name)) :=
    List.mem_of_mem_head? hfirst
  have hname : p.Name = name := by
    have := (List.mem_filter.mp hmem).2
    simpa using this
  refine ⟨hname, ?_, ?_⟩
  · unfold createPlaylistStep
    rw [hfirst]
    rfl
  · unfold createPlaylistStep
    rw [hfirst]
    cases hf : playlistFolderName name with
    | none =>
      exact ⟨none, by simp⟩
    | some folder_name =>
      refine ⟨some folder_name, ?_⟩
      cases hlook : first_or_none (current_playlists.filter
          (fun q => decide (q.Name = folder_name) && q.is_folder)) with
      | none => simp [hlook]
      | some q => simp [hlook]

theorem C10_same_named_playlist_replaced_witness :
    (first_or_none
        (([⟨['P'], false⟩] : List RbPlaylist).filter
          (fun q => decide (q.Name = ['P']))) = some ⟨['P'], false⟩) ∧
    ((⟨['P'], false⟩ : RbPlaylist).Name = ['P'] ∧
      (createPlaylistStep [⟨['P'], false⟩] [] ['P']).head? =
        some (RbOp.deletePlaylist ⟨['P'], false⟩) ∧
      ∃ folder, (createPlaylistStep [⟨['P'], false⟩] [] ['P']).getLast? =
        some (RbOp.createPlaylist ['P'] folder)) :=
  ⟨by decide,
    C10_same_named_playlist_replaced [⟨['P'], false⟩] [] ['P'] ⟨['P'], false⟩
      (by decide)⟩

theorem C9_attempt_get_key_safety_witness :
    ((some (['M', 'i', 'x', ' ', '8', 'A']) : Option (List Char)) = none ∨
      ∃ s, (some (['M', 'i', 'x', ' ', '8', 'A']) : Option (List Char)) = some s ∧
        (pySliceLastThree s).any Char.isAlphanum = true) ∧
    ∃ r, attempt_get_key (some (['M', 'i', 'x', ' ', '8', 'A'])) = Except.ok r ∧
      (r = none ∨ ∃ k, r = some k ∧ IsCamelotKey k) :=
  ⟨Or.inr ⟨['M', 'i', 'x', ' ', '8', 'A'], rfl, by decide⟩,
    C9_attempt_get_key_safety (some (['M', 'i', 'x', ' ', '8', 'A']))
      (Or.inr ⟨['M', 'i', 'x', ' ', '8', 'A'], rfl, by decide⟩)⟩


